import Mathlib

/-!
Verification development for the syntactic front end of
Simple-XX/SimpleCompiler: a shallow embedding of the recursive-descent
parser in src/parser/parser.cpp together with the AST node model of
ast.h, and theorems about the embedded parser.

The parser runs over a stream of tokens produced by an external lexer.
The lexer and the type/tag declarations are not part of the sources at
hand, so the token alphabet and the tag-to-operator map are modelled
from the spec; everything else is translated line by line from
parser.cpp.  Machine state (the one-token lookahead pulled from the
lexer) is modelled as the list of not-yet-consumed tokens whose head is
the current lookahead; `next()` is `List.tail`.  `exit(n)` is modelled
as an `Except` error carrying `n`, which matches the C++ behaviour of
aborting the whole parse at once.  The mutually recursive grammar rules
take an explicit fuel argument; running out of fuel is a separate error
value distinct from every exit code.
-/

namespace SimpleCompiler

/-- Modelled from the spec: the token tags of the absent lexical module.
The tag names are the ones parser.cpp uses (KW_CONST, ID, LPAREN, ...),
extended with the operator tags of the six precedence tiers described in
the spec (multiplicative, additive, relational, equality, logical). -/
inductive Tag where
  | KW_CONST | KW_INT | KW_VOID | KW_CHAR
  | KW_IF | KW_ELSE | KW_WHILE | KW_BREAK | KW_CONTINUE | KW_RETURN
  | ID | NUM
  | ADD | SUB | MUL | DIV | MOD
  | LT | GT | LE | GE | EQU | NEQU
  | AND | OR | NOT
  | ASSIGN | SEMICON | COMMA
  | LPAREN | RPAREN | LBRACKET | RBRACKET | LBRACE | RBRACE
deriving DecidableEq, Repr

/-- Operator tags of the AST, as used by parser.cpp (add_op, sub_op,
mul_op, div_op, mod_op, lt_op, gt_op, le_op, ge_op, equ_op, nequ_op,
and_op, or_op, not_op). -/
inductive Operator where
  | add_op | sub_op | mul_op | div_op | mod_op
  | lt_op | gt_op | le_op | ge_op | equ_op | nequ_op
  | and_op | or_op | not_op
deriving DecidableEq, Repr

/-- The C++ enum `Type` (function return types); renamed `Ty` because
`Type` is reserved in Lean. -/
inductive Ty where
  | int_t | char_t | void_t
deriving DecidableEq, Repr

/-- The C++ enum `VarType` (scalar vs array identifiers and lvalues). -/
inductive VarType where
  | var_t | array_t
deriving DecidableEq, Repr

/-- The C++ enum `Control` (break/continue/return statement kinds). -/
inductive Control where
  | break_c | continue_c | return_c
deriving DecidableEq, Repr

/-- Modelled from the spec: a token of the absent lexical module.  A
token is a tagged value; identifier tokens carry a name and literal
tokens carry an integer value, all others carry only their tag (this is
the Token/Id/Num class hierarchy that parser.cpp downcasts by tag). -/
inductive Token where
  | basic (tag : Tag)
  | id (name : String)
  | num (val : Int)
deriving DecidableEq, Repr

/-- The tag of a token (the `token->tag` field access). -/
def Token.tag : Token → Tag
  | .basic t => t
  | .id _ => Tag.ID
  | .num _ => Tag.NUM

/-- Modelled from the spec: `tag_to_op` of the absent type module maps an
operator token tag to its `Operator`; a non-operator tag maps to no
operator, so the membership test of the generic binary loop fails on it. -/
def tag_to_op : Tag → Option Operator
  | Tag.ADD => some Operator.add_op
  | Tag.SUB => some Operator.sub_op
  | Tag.MUL => some Operator.mul_op
  | Tag.DIV => some Operator.div_op
  | Tag.MOD => some Operator.mod_op
  | Tag.LT => some Operator.lt_op
  | Tag.GT => some Operator.gt_op
  | Tag.LE => some Operator.le_op
  | Tag.GE => some Operator.ge_op
  | Tag.EQU => some Operator.equ_op
  | Tag.NEQU => some Operator.nequ_op
  | Tag.AND => some Operator.and_op
  | Tag.OR => some Operator.or_op
  | Tag.NOT => some Operator.not_op
  | _ => none

/-- The AST node model of ast.h, as one closed sum: constructor `X`
stands for class `XAST` with the same fields (owned child pointers
become child values, `ASTPtrList` becomes `List AST`, an optional owned
child becomes `Option AST`). -/
inductive AST where
  | CompUnit (units : List AST)
  | Stmt (stmt : AST)
  | FuncDef (type : Ty) (name : String) (params : List AST) (body : AST)
  | FuncCall (name : String) (args : List AST)
  | VarDecl (isConst : Bool) (vars : List AST)
  | VarDef (isConst : Bool) (var : AST) (initVal : Option AST)
  | Id (name : String) (type : VarType) (isConst : Bool) (dim : List AST)
  | InitVal (type : VarType) (values : List AST)
  | Block (stmts : List AST)
  | Binary (op : Operator) (left : AST) (right : AST)
  | Unary (op : Operator) (exp : AST)
  | Num (val : Int)
  | If (conditionExp : AST) (thenAST : AST) (elseAST : Option AST)
  | While (conditionExp : AST) (body : AST)
  | Control (type : Control) (returnStmt : Option AST)
  | Assign (left : AST) (right : AST)
  | LVal (name : String) (type : VarType) (position : List AST)
  | Empty
deriving Repr

/-- The `dynamic_cast<LValAST *>` test of `Parser::statement`: is the
node structurally a left-value? -/
def isLVal : AST → Bool
  | AST.LVal _ _ _ => true
  | _ => false

/-- Outcome of a parse step: either an abort (`exit(code)` in the C++,
which kills the process at once) or fuel exhaustion of the model. -/
inductive PErr where
  | exit (code : Nat)
  | fuel
deriving DecidableEq, Repr

/-- Result of a grammar rule: an abort, or a value plus the tokens that
remain after it (the head of the remaining list is the current
lookahead token of the C++ parser). -/
abbrev Res (α : Type) : Type := Except PErr (α × List Token)

/-- `Parser::match_token`: does the current lookahead token carry the
given tag?  On an exhausted stream no tag matches. -/
def match_token (ts : List Token) (tag : Tag) : Bool :=
  match ts with
  | t :: _ => t.tag == tag
  | [] => false

/-- `tag_to_op(token->tag)` on the current lookahead; none when the
stream is exhausted. -/
def headOp (ts : List Token) : Option Operator :=
  match ts with
  | t :: _ => tag_to_op t.tag
  | [] => none

/-- The `((Id *)token)->name` access of parser.cpp, performed only after
a `match_token(Tag::ID)` check; arbitrary on other tokens. -/
def headName (ts : List Token) : String :=
  match ts with
  | Token.id n :: _ => n
  | _ => ""

/-- The `((Num *)token)->val` access of parser.cpp, performed only after
a `match_token(Tag::NUM)` check; arbitrary on other tokens. -/
def headVal (ts : List Token) : Int :=
  match ts with
  | Token.num v :: _ => v
  | _ => 0

/-- The `token->tag` read that `Parser::statement` stores into `temp`;
arbitrary on an exhausted stream (only read after a successful match). -/
def headTag (ts : List Token) : Tag :=
  match ts with
  | t :: _ => t.tag
  | [] => Tag.SEMICON

/-- The sub-parser each call of the generic `Parser::binary` loop uses
for its operands (the lambda argument of `binary` in parser.cpp,
defunctionalised). -/
inductive Lv where
  | unary_lv | mul_lv | add_lv | rel_lv | eq_lv | and_lv
deriving DecidableEq, Repr

/-- Operator set wired into `Parser::binary_relation` (parser.cpp line
212): gt_op, ge_op, le_op, le_op — le_op appears twice and lt_op does
not appear. -/
def relationOps : List Operator := [Operator.gt_op, Operator.ge_op, Operator.le_op, Operator.le_op]

/-- Operator set wired into `Parser::binary_eq`. -/
def eqOps : List Operator := [Operator.equ_op, Operator.nequ_op]

/-- Operator set wired into `Parser::binary_add`. -/
def addOps : List Operator := [Operator.add_op, Operator.sub_op]

/-- Operator set wired into `Parser::binary_mul`. -/
def mulOps : List Operator := [Operator.mul_op, Operator.div_op, Operator.mod_op]

/-- Operator set wired into `Parser::binary_and`. -/
def andOps : List Operator := [Operator.and_op]

/-- Operator set wired into `Parser::binary_or`. -/
def orOps : List Operator := [Operator.or_op]

mutual

/-- `Parser::program` (parser.cpp lines 42-188): the top-level loop over
declarations and definitions; `is_done()` is modelled as exhaustion of
the token stream. -/
def program (fuel : Nat) (ts : List Token) : Except PErr (AST × List Token) :=
  match fuel with
  | 0 => .error .fuel
  | f+1 => programLoop f [] ts

/-- Body of the `while (is_done() == false)` loop of `Parser::program`,
with the accumulated top-level nodes. -/
def programLoop (fuel : Nat) (nodes : List AST) (ts : List Token) : Except PErr (AST × List Token) :=
  match fuel with
  | 0 => .error .fuel
  | f+1 =>
    if ts.isEmpty then .ok (AST.CompUnit nodes, ts)
    else if match_token ts Tag.KW_CONST then do
      let (variable_decl, ts1) ← var_decl f ts
      programLoop f (nodes ++ [variable_decl]) ts1
    else if match_token ts Tag.KW_VOID then do
      let (func, ts1) ← function_def f ts
      programLoop f (nodes ++ [func]) ts1
    else if match_token ts Tag.KW_INT then
      let ts1 := ts.tail
      if match_token ts1 Tag.ID then
        let name := headName ts1
        let ts2 := ts1.tail
        if match_token ts2 Tag.LPAREN then do
          -- function-definition branch, parser.cpp lines 70-132
          let ts3 := ts2.tail
          let (args, ts4) ←
            if match_token ts3 Tag.RPAREN then (.ok ([], ts3) : Except PErr (List AST × List Token))
            else do
              let (args, ts4) ← paramList f [] ts3
              if match_token ts4 Tag.RPAREN then (.ok (args, ts4) : Except PErr (List AST × List Token))
              else .error (.exit 993)
          let (body, ts5) ← block f ts4.tail
          programLoop f (nodes ++ [AST.FuncDef Ty.int_t name args body]) ts5
        else do
          -- top-level variable-definition branch, parser.cpp lines 133-181
          let (decl, ts3) ← topVarDecl f name ts2
          programLoop f (nodes ++ [decl]) ts3
      else .error (.exit 3)
    else .error (.exit 233)

/-- The top-level variable-definition branch of `Parser::program`
(parser.cpp lines 134-181): dimensions and optional initializer of the
first definition (whose identifier is already consumed), then the
comma-separated rest. -/
def topVarDecl (fuel : Nat) (name : String) (ts : List Token) : Except PErr (AST × List Token) :=
  match fuel with
  | 0 => .error .fuel
  | f+1 => do
    let (dims, ts1) ← varDims f [] ts
    let var := if dims.isEmpty then AST.Id name VarType.var_t false []
               else AST.Id name VarType.array_t false dims
    let (varDef0, ts2) ←
      if match_token ts1 Tag.ASSIGN then do
        let (init, ts2) ← init_val f ts1.tail
        (.ok (AST.VarDef false var (some init), ts2) : Except PErr (AST × List Token))
      else (.ok (AST.VarDef false var none, ts1) : Except PErr (AST × List Token))
    topVarLoop f [varDef0] ts2

/-- The `while (match_token(Tag::COMMA))` loop of the top-level
variable-definition branch (parser.cpp lines 167-181), ending at the
required terminator. -/
def topVarLoop (fuel : Nat) (varDefs : List AST) (ts : List Token) : Except PErr (AST × List Token) :=
  match fuel with
  | 0 => .error .fuel
  | f+1 =>
    if match_token ts Tag.COMMA then do
      let (vd, ts1) ← var_def f false ts.tail
      topVarLoop f (varDefs ++ [vd]) ts1
    else if match_token ts Tag.SEMICON then
      .ok (AST.VarDecl false varDefs, ts.tail)
    else .error (.exit 134)

/-- `Parser::binary` (parser.cpp lines 191-208): parse the left operand
with the sub-parser, then fold further operands left-associatively.
The null checks of the operands (exits 100/101) cannot fire: every
sub-parser either aborts or returns a node. -/
def binary (fuel : Nat) (sub : Lv) (ops : List Operator) (ts : List Token) : Except PErr (AST × List Token) :=
  match fuel with
  | 0 => .error .fuel
  | f+1 => do
    let (lhs, ts1) ← callSub f sub ts
    binaryLoop f sub ops lhs ts1

/-- The `while (find(ops.begin(), ops.end(), tag_to_op(token->tag)) !=
ops.end())` loop of `Parser::binary`: while the lookahead maps to an
operator of this tier, consume it, parse the right operand with the
sub-parser, and fold into a Binary node on the left. -/
def binaryLoop (fuel : Nat) (sub : Lv) (ops : List Operator) (lhs : AST) (ts : List Token) : Except PErr (AST × List Token) :=
  match fuel with
  | 0 => .error .fuel
  | f+1 =>
    match headOp ts with
    | some op =>
      if ops.contains op then do
        let (rhs, ts1) ← callSub f sub ts.tail
        binaryLoop f sub ops (AST.Binary op lhs rhs) ts1
      else .ok (lhs, ts)
    | none => .ok (lhs, ts)

/-- Dispatch of the defunctionalised sub-parser argument of
`Parser::binary` (the lambdas of parser.cpp lines 210-238). -/
def callSub (fuel : Nat) (sub : Lv) (ts : List Token) : Except PErr (AST × List Token) :=
  match fuel with
  | 0 => .error .fuel
  | f+1 =>
    match sub with
    | Lv.unary_lv => unary f ts
    | Lv.mul_lv => binary_mul f ts
    | Lv.add_lv => binary_add f ts
    | Lv.rel_lv => binary_relation f ts
    | Lv.eq_lv => binary_eq f ts
    | Lv.and_lv => binary_and f ts

/-- `Parser::binary_relation` (parser.cpp lines 210-213): relational
tier over additive operands, with the wired operator set
`relationOps = {gt_op, ge_op, le_op, le_op}`. -/
def binary_relation (fuel : Nat) (ts : List Token) : Except PErr (AST × List Token) :=
  match fuel with
  | 0 => .error .fuel
  | f+1 => binary f Lv.add_lv relationOps ts

/-- `Parser::binary_eq` (parser.cpp lines 215-218). -/
def binary_eq (fuel : Nat) (ts : List Token) : Except PErr (AST × List Token) :=
  match fuel with
  | 0 => .error .fuel
  | f+1 => binary f Lv.rel_lv eqOps ts

/-- `Parser::binary_add` (parser.cpp lines 220-223). -/
def binary_add (fuel : Nat) (ts : List Token) : Except PErr (AST × List Token) :=
  match fuel with
  | 0 => .error .fuel
  | f+1 => binary f Lv.mul_lv addOps ts

/-- `Parser::binary_mul` (parser.cpp lines 225-228). -/
def binary_mul (fuel : Nat) (ts : List Token) : Except PErr (AST × List Token) :=
  match fuel with
  | 0 => .error .fuel
  | f+1 => binary f Lv.unary_lv mulOps ts

/-- `Parser::binary_and` (parser.cpp lines 230-233). -/
def binary_and (fuel : Nat) (ts : List Token) : Except PErr (AST × List Token) :=
  match fuel with
  | 0 => .error .fuel
  | f+1 => binary f Lv.eq_lv andOps ts

/-- `Parser::binary_or` (parser.cpp lines 235-238). -/
def binary_or (fuel : Nat) (ts : List Token) : Except PErr (AST × List Token) :=
  match fuel with
  | 0 => .error .fuel
  | f+1 => binary f Lv.and_lv orOps ts

/-- `Parser::unary` (parser.cpp lines 241-331): parenthesised
sub-expression (recursing into `binary_add`), integer literal, prefix
`+`/`-`/`!`, or identifier disambiguated into call, indexed lvalue or
bare lvalue; any other token is the fatal exit 55. -/
def unary (fuel : Nat) (ts : List Token) : Except PErr (AST × List Token) :=
  match fuel with
  | 0 => .error .fuel
  | f+1 =>
    if match_token ts Tag.LPAREN then do
      let (exp, ts1) ← binary_add f ts.tail
      if match_token ts1 Tag.RPAREN then .ok (exp, ts1.tail)
      else .error (.exit 102)
    else if match_token ts Tag.NUM then
      .ok (AST.Num (headVal ts), ts.tail)
    else if match_token ts Tag.ADD then do
      let (exp, ts1) ← unary f ts.tail
      .ok (AST.Unary Operator.add_op exp, ts1)
    else if match_token ts Tag.SUB then do
      let (exp, ts1) ← unary f ts.tail
      .ok (AST.Unary Operator.sub_op exp, ts1)
    else if match_token ts Tag.NOT then do
      let (exp, ts1) ← unary f ts.tail
      .ok (AST.Unary Operator.not_op exp, ts1)
    else if match_token ts Tag.ID then
      let id_name := headName ts
      let ts1 := ts.tail
      if match_token ts1 Tag.LPAREN then
        let ts2 := ts1.tail
        if match_token ts2 Tag.RPAREN then
          .ok (AST.FuncCall id_name [], ts2.tail)
        else do
          let (params, ts3) ← callParams f [] ts2
          if match_token ts3 Tag.RPAREN then .ok (AST.FuncCall id_name params, ts3.tail)
          else .error (.exit 107)
      else if match_token ts1 Tag.LBRACKET then do
        let (position, ts2) ← lvalIndex f [] ts1
        .ok (AST.LVal id_name VarType.array_t position, ts2)
      else
        .ok (AST.LVal id_name VarType.var_t [], ts1)
    else .error (.exit 55)

/-- The argument loop of the function-call branch of `Parser::unary`
(parser.cpp lines 296-306): comma-separated additive expressions. -/
def callParams (fuel : Nat) (params : List AST) (ts : List Token) : Except PErr (List AST × List Token) :=
  match fuel with
  | 0 => .error .fuel
  | f+1 => do
    let (param, ts1) ← binary_add f ts
    if match_token ts1 Tag.COMMA then
      callParams f (params ++ [param]) ts1.tail
    else
      .ok (params ++ [param], ts1)

/-- The index loop of the array-lvalue branch of `Parser::unary`
(parser.cpp lines 314-323): bracketed additive index expressions. -/
def lvalIndex (fuel : Nat) (position : List AST) (ts : List Token) : Except PErr (List AST × List Token) :=
  match fuel with
  | 0 => .error .fuel
  | f+1 =>
    if match_token ts Tag.LBRACKET then do
      let (sub_position, ts1) ← binary_add f ts.tail
      if match_token ts1 Tag.RBRACKET then
        lvalIndex f (position ++ [sub_position]) ts1.tail
      else .error (.exit 108)
    else .ok (position, ts)

/-- `Parser::statement` (parser.cpp lines 333-430): dispatch on the
leading token; the trailing expression of the break/continue/return
branch and the expressions of the expression-statement branch are
parsed with `binary_add`. -/
def statement (fuel : Nat) (ts : List Token) : Except PErr (AST × List Token) :=
  match fuel with
  | 0 => .error .fuel
  | f+1 =>
    if match_token ts Tag.SEMICON then
      .ok (AST.Stmt AST.Empty, ts.tail)
    else if match_token ts Tag.LBRACE then do
      let (body, ts1) ← block f ts
      .ok (AST.Stmt body, ts1)
    else if match_token ts Tag.KW_WHILE then do
      let (stmt, ts1) ← while_loop f ts
      .ok (AST.Stmt stmt, ts1)
    else if match_token ts Tag.KW_IF then do
      let (stmt, ts1) ← if_else f ts
      .ok (AST.Stmt stmt, ts1)
    else if match_token ts Tag.KW_BREAK || match_token ts Tag.KW_CONTINUE
            || match_token ts Tag.KW_RETURN then
      let temp := headTag ts
      let ts1 := ts.tail
      if match_token ts1 Tag.SEMICON then
        -- parser.cpp lines 363-381: bare break;/continue;/return;
        let command : Control :=
          match temp with
          | Tag.KW_BREAK => Control.break_c
          | Tag.KW_CONTINUE => Control.continue_c
          | Tag.KW_RETURN => Control.return_c
          | _ => Control.break_c
        .ok (AST.Stmt (AST.Control command none), ts1.tail)
      else do
        -- parser.cpp lines 382-391: a trailing expression is parsed and
        -- the node kind is always Control::return_c, whatever `temp` is
        let (return_exp, ts2) ← binary_add f ts1
        if match_token ts2 Tag.SEMICON then
          .ok (AST.Stmt (AST.Control Control.return_c (some return_exp)), ts2.tail)
        else .error (.exit 110)
    else do
      -- parser.cpp lines 394-427: parse an expression, then classify
      let (exp, ts1) ← binary_add f ts
      if isLVal exp then
        if match_token ts1 Tag.ASSIGN then do
          let (rhs, ts2) ← binary_add f ts1.tail
          if match_token ts2 Tag.SEMICON then
            .ok (AST.Stmt (AST.Assign exp rhs), ts2.tail)
          else .error (.exit 113)
        else if match_token ts1 Tag.SEMICON then
          .ok (AST.Stmt exp, ts1.tail)
        else .error (.exit 114)
      else
        if match_token ts1 Tag.SEMICON then
          .ok (AST.Stmt exp, ts1.tail)
        else .error (.exit 115)

/-- `Parser::if_else` (parser.cpp lines 432-461): the leading token is
consumed unchecked, then `( condition ) then-statement` and, when the
lookahead right after the then-statement is `else`, the else branch is
attached immediately to this innermost if. -/
def if_else (fuel : Nat) (ts : List Token) : Except PErr (AST × List Token) :=
  match fuel with
  | 0 => .error .fuel
  | f+1 =>
    let ts1 := ts.tail
    if match_token ts1 Tag.LPAREN then do
      let (condition, ts2) ← binary_or f ts1.tail
      if match_token ts2 Tag.RPAREN then do
        let (thenStatement, ts3) ← statement f ts2.tail
        if match_token ts3 Tag.KW_ELSE then do
          let (elseStatement, ts4) ← statement f ts3.tail
          .ok (AST.If condition thenStatement (some elseStatement), ts4)
        else .ok (AST.If condition thenStatement none, ts3)
      else .error (.exit 118)
    else .error (.exit 116)

/-- `Parser::while_loop` (parser.cpp lines 463-482). -/
def while_loop (fuel : Nat) (ts : List Token) : Except PErr (AST × List Token) :=
  match fuel with
  | 0 => .error .fuel
  | f+1 =>
    let ts1 := ts.tail
    if match_token ts1 Tag.LPAREN then do
      let (condition, ts2) ← binary_or f ts1.tail
      if match_token ts2 Tag.RPAREN then do
        let (stmt, ts3) ← statement f ts2.tail
        .ok (AST.While condition stmt, ts3)
      else .error (.exit 118)
    else .error (.exit 116)

/-- `Parser::init_val` (parser.cpp lines 484-519): braced aggregate of
nested initializers, or one additive expression wrapped as a scalar
initializer. -/
def init_val (fuel : Nat) (ts : List Token) : Except PErr (AST × List Token) :=
  match fuel with
  | 0 => .error .fuel
  | f+1 =>
    if match_token ts Tag.LBRACE then
      let ts1 := ts.tail
      if match_token ts1 Tag.RBRACE then
        .ok (AST.InitVal VarType.array_t [], ts1.tail)
      else do
        let (inits, ts2) ← initList f [] ts1
        if match_token ts2 Tag.RBRACE then
          .ok (AST.InitVal VarType.array_t inits, ts2.tail)
        else .error (.exit 998)
    else do
      let (exp, ts1) ← binary_add f ts
      .ok (AST.InitVal VarType.var_t [exp], ts1)

/-- The comma-separated element loop of the aggregate branch of
`Parser::init_val` (parser.cpp lines 491-502). -/
def initList (fuel : Nat) (inits : List AST) (ts : List Token) : Except PErr (List AST × List Token) :=
  match fuel with
  | 0 => .error .fuel
  | f+1 => do
    let (init, ts1) ← init_val f ts
    if match_token ts1 Tag.COMMA then
      initList f (inits ++ [init]) ts1.tail
    else .ok (inits ++ [init], ts1)

/-- `Parser::var_decl` (parser.cpp lines 521-556): optional const
qualifier, mandatory int, comma-separated definitions, terminator. -/
def var_decl (fuel : Nat) (ts : List Token) : Except PErr (AST × List Token) :=
  match fuel with
  | 0 => .error .fuel
  | f+1 =>
    let isConst := match_token ts Tag.KW_CONST
    let ts1 := if isConst then ts.tail else ts
    if match_token ts1 Tag.KW_INT then do
      let (varDef0, ts2) ← var_def f isConst ts1.tail
      varDeclLoop f isConst [varDef0] ts2
    else .error (.exit 450)

/-- The `while (match_token(Tag::COMMA))` loop of `Parser::var_decl`
(parser.cpp lines 542-555), ending at the required terminator. -/
def varDeclLoop (fuel : Nat) (isConst : Bool) (vars : List AST) (ts : List Token) : Except PErr (AST × List Token) :=
  match fuel with
  | 0 => .error .fuel
  | f+1 =>
    if match_token ts Tag.COMMA then do
      let (varDef1, ts1) ← var_def f isConst ts.tail
      varDeclLoop f isConst (vars ++ [varDef1]) ts1
    else if match_token ts Tag.SEMICON then
      .ok (AST.VarDecl isConst vars, ts.tail)
    else .error (.exit 452)

/-- `Parser::var_def` (parser.cpp lines 558-596): identifier, bracketed
dimension expressions, optional initializer; a const definition without
initializer is the fatal exit 457. -/
def var_def (fuel : Nat) (isConst : Bool) (ts : List Token) : Except PErr (AST × List Token) :=
  match fuel with
  | 0 => .error .fuel
  | f+1 =>
    if match_token ts Tag.ID then do
      let id_name := headName ts
      let (dims, ts1) ← varDims f [] ts.tail
      let var := if dims.isEmpty then AST.Id id_name VarType.var_t isConst []
                 else AST.Id id_name VarType.array_t isConst dims
      if match_token ts1 Tag.ASSIGN then do
        let (init, ts2) ← init_val f ts1.tail
        .ok (AST.VarDef isConst var (some init), ts2)
      else
        if isConst then .error (.exit 457)
        else .ok (AST.VarDef isConst var none, ts1)
    else .error (.exit 452)

/-- The `while (match_token(Tag::LBRACKET))` dimension loop shared by
`Parser::var_def` (parser.cpp lines 566-577) and the top-level
variable-definition branch of `Parser::program` (lines 137-148); the
dimension expressions are parsed with `binary_add`. -/
def varDims (fuel : Nat) (dims : List AST) (ts : List Token) : Except PErr (List AST × List Token) :=
  match fuel with
  | 0 => .error .fuel
  | f+1 =>
    if match_token ts Tag.LBRACKET then do
      let (exp, ts1) ← binary_add f ts.tail
      if match_token ts1 Tag.RBRACKET then
        varDims f (dims ++ [exp]) ts1.tail
      else .error (.exit 454)
    else .ok (dims, ts)

/-- `Parser::block` (parser.cpp lines 598-623): the current token is
consumed by `next()` without any check that it is an opening brace,
then items are collected until a closing brace. -/
def block (fuel : Nat) (ts : List Token) : Except PErr (AST × List Token) :=
  match fuel with
  | 0 => .error .fuel
  | f+1 => blockItems f [] ts.tail

/-- The item loop of `Parser::block` (parser.cpp lines 600-622): local
declarations on const/int, statements otherwise, until the closing
brace. -/
def blockItems (fuel : Nat) (stmts : List AST) (ts : List Token) : Except PErr (AST × List Token) :=
  match fuel with
  | 0 => .error .fuel
  | f+1 =>
    if match_token ts Tag.RBRACE then
      .ok (AST.Block stmts, ts.tail)
    else if match_token ts Tag.KW_CONST || match_token ts Tag.KW_INT then do
      let (var, ts1) ← var_decl f ts
      blockItems f (stmts ++ [var]) ts1
    else do
      let (stmt, ts1) ← statement f ts
      blockItems f (stmts ++ [stmt]) ts1

/-- `Parser::function_def` (parser.cpp lines 625-698): return type from
the current token (`type` stays uninitialised in the C++ when none of
int/char/void matches; the model picks int_t arbitrarily for that dead
case), name, parameter list, block body. -/
def function_def (fuel : Nat) (ts : List Token) : Except PErr (AST × List Token) :=
  match fuel with
  | 0 => .error .fuel
  | f+1 =>
    let type :=
      if match_token ts Tag.KW_INT then Ty.int_t
      else if match_token ts Tag.KW_CHAR then Ty.char_t
      else if match_token ts Tag.KW_VOID then Ty.void_t
      else Ty.int_t
    let ts1 := ts.tail
    if match_token ts1 Tag.ID then
      let id_name := headName ts1
      let ts2 := ts1.tail
      if match_token ts2 Tag.LPAREN then do
        let ts3 := ts2.tail
        let (args, ts4) ←
          if match_token ts3 Tag.RPAREN then (.ok ([], ts3) : Except PErr (List AST × List Token))
          else do
            let (args, ts4) ← paramList f [] ts3
            if match_token ts4 Tag.RPAREN then (.ok (args, ts4) : Except PErr (List AST × List Token))
            else .error (.exit 993)
        let (body, ts5) ← block f ts4.tail
        .ok (AST.FuncDef type id_name args body, ts5)
      else .error (.exit 998)
    else .error (.exit 999)

/-- The parameter loop shared, token for token, by `Parser::program`
(parser.cpp lines 74-123) and `Parser::function_def` (lines 645-690):
each parameter is int + identifier + optional array marker; the array
marker is an empty bracket pair that pushes the sentinel `NumAST(0)`
first, followed by further bracketed dimension expressions. -/
def paramList (fuel : Nat) (args : List AST) (ts : List Token) : Except PErr (List AST × List Token) :=
  match fuel with
  | 0 => .error .fuel
  | f+1 =>
    if match_token ts Tag.KW_INT then
      let ts1 := ts.tail
      if match_token ts1 Tag.ID then
        let arg_name := headName ts1
        let ts2 := ts1.tail
        if match_token ts2 Tag.LBRACKET then
          let ts3 := ts2.tail
          if match_token ts3 Tag.RBRACKET then do
            let (dim, ts4) ← paramDims f [AST.Num 0] ts3.tail
            paramNext f (args ++ [AST.Id arg_name VarType.array_t false dim]) ts4
          else .error (.exit 997)
        else
          paramNext f (args ++ [AST.Id arg_name VarType.var_t false []]) ts2
      else .error (.exit 998)
    else .error (.exit 996)

/-- The higher-rank dimension loop of an array parameter (parser.cpp
lines 99-115 and 668-682): bracketed additive dimension expressions
appended after the sentinel. -/
def paramDims (fuel : Nat) (dim : List AST) (ts : List Token) : Except PErr (List AST × List Token) :=
  match fuel with
  | 0 => .error .fuel
  | f+1 =>
    if match_token ts Tag.LBRACKET then do
      let (d, ts1) ← binary_add f ts.tail
      if match_token ts1 Tag.RBRACKET then
        paramDims f (dim ++ [d]) ts1.tail
      else .error (.exit 994)
    else .ok (dim, ts)

/-- The `if (!match_token(Tag::COMMA)) break; next();` step at the end
of each parameter (parser.cpp lines 120-122 and 687-689). -/
def paramNext (fuel : Nat) (args : List AST) (ts : List Token) : Except PErr (List AST × List Token) :=
  match fuel with
  | 0 => .error .fuel
  | f+1 =>
    if match_token ts Tag.COMMA then paramList f args ts.tail
    else .ok (args, ts)

end

/-- `Parser::parsing` (parser.cpp lines 34-39): the entry point reads
the first token and runs `program`. -/
def parsing (fuel : Nat) (ts : List Token) : Except PErr (AST × List Token) := program fuel ts

end SimpleCompiler

namespace SimpleCompiler

/-! Helper lemmas shared by the claim theorems. -/

/-- The generic binary loop returns its accumulated left operand
unchanged when the lookahead does not map to an operator. -/
theorem binaryLoop_none (f : Nat) (sub : Lv) (ops : List Operator) (lhs : AST) (ts : List Token)
    (h : headOp ts = none) : binaryLoop (f+1) sub ops lhs ts = .ok (lhs, ts) := by
  simp [binaryLoop, h]

/-- Whatever the generic binary loop returns is a left fold of operator
and right-operand pairs over the initial left operand: the accumulated
operand only ever ends up on the left of each new Binary node. -/
theorem binaryLoop_foldl (fuel : Nat) :
    ∀ (sub : Lv) (ops : List Operator) (lhs e : AST) (ts ts1 : List Token),
      binaryLoop fuel sub ops lhs ts = .ok (e, ts1) →
      ∃ l : List (Operator × AST), e = l.foldl (fun a p => AST.Binary p.1 a p.2) lhs := by
  induction fuel with
  | zero => intro sub ops lhs e ts ts1 h; simp [binaryLoop] at h
  | succ f ih =>
    intro sub ops lhs e ts ts1 h
    rw [binaryLoop] at h
    rcases hop : headOp ts with _ | op <;> rw [hop] at h
    · exact ⟨[], by simp_all⟩
    · by_cases hc : ops.contains op
      · simp only [hc, if_true] at h
        rcases hcs : callSub f sub ts.tail with e1 | p <;> rw [hcs] at h
        · simp only [Bind.bind, Except.bind] at h
          cases h
        · obtain ⟨rhs, ts2⟩ := p
          simp only [Bind.bind, Except.bind] at h
          obtain ⟨l, hl⟩ := ih sub ops (AST.Binary op lhs rhs) e ts2 ts1 h
          exact ⟨(op, rhs) :: l, by simpa using hl⟩
      · simp only [hc, if_false] at h
        exact ⟨[], by simp_all⟩

/-- When `binary_add` is run on a literal followed by a non-operator
token and succeeds, it returns exactly the literal node and consumes
exactly the literal. -/
theorem binary_add_num_ok (fuel : Nat) (v : Int) (rest : List Token) (e : AST) (ts1 : List Token)
    (hr : headOp rest = none) (h : binary_add fuel (Token.num v :: rest) = .ok (e, ts1)) :
    e = AST.Num v ∧ ts1 = rest := by
  cases fuel with
  | zero => simp [binary_add] at h
  | succ f =>
  rw [binary_add] at h
  cases f with
  | zero => simp [binary] at h
  | succ g =>
  rw [binary] at h
  cases g with
  | zero => simp [callSub, Bind.bind, Except.bind] at h
  | succ i =>
  rw [callSub] at h
  cases i with
  | zero => simp [binary_mul, Bind.bind, Except.bind] at h
  | succ j =>
  rw [binary_mul] at h
  cases j with
  | zero => simp [binary, Bind.bind, Except.bind] at h
  | succ k =>
  rw [binary] at h
  cases k with
  | zero => simp [callSub, Bind.bind, Except.bind] at h
  | succ l =>
  rw [callSub] at h
  cases l with
  | zero => simp [unary, Bind.bind, Except.bind] at h
  | succ m =>
  rw [show unary (m+1) (Token.num v :: rest) = .ok (AST.Num v, rest) from rfl] at h
  simp only [Bind.bind, Except.bind] at h
  rw [binaryLoop_none _ _ _ _ _ hr] at h
  simp only [Except.bind] at h
  rw [binaryLoop_none _ _ _ _ _ hr] at h
  simp only [Except.ok.injEq, Prod.mk.injEq] at h
  exact ⟨h.1.symm, h.2.symm⟩

/-- Token rendering of a list of bracketed literal dimension
expressions: `[n1][n2]...[nk]`. -/
def dimToks : List Int → List Token
  | [] => []
  | n :: ns => Token.basic Tag.LBRACKET :: Token.num n :: Token.basic Tag.RBRACKET :: dimToks ns

/-- The higher-rank parameter-dimension loop appends exactly one parsed
dimension node per bracketed literal, in source order, after whatever is
already accumulated. -/
theorem paramDims_ok (ns : List Int) : ∀ (fuel : Nat) (dim out : List AST) (rest ts1 : List Token),
    match_token rest Tag.LBRACKET = false →
    paramDims fuel dim (dimToks ns ++ rest) = .ok (out, ts1) →
    out = dim ++ ns.map AST.Num ∧ ts1 = rest := by
  induction ns with
  | nil =>
    intro fuel dim out rest ts1 hnl h
    cases fuel with
    | zero => simp [paramDims] at h
    | succ f =>
      rw [paramDims] at h
      simp only [dimToks, List.nil_append, hnl, Bool.false_eq_true, if_false] at h
      simp only [Except.ok.injEq, Prod.mk.injEq] at h
      exact ⟨by simpa using h.1.symm, h.2.symm⟩
  | cons n ns ih =>
    intro fuel dim out rest ts1 hnl h
    cases fuel with
    | zero => simp [paramDims] at h
    | succ f =>
      rw [paramDims] at h
      simp only [dimToks, List.cons_append] at h
      rw [show match_token (Token.basic Tag.LBRACKET :: Token.num n :: Token.basic Tag.RBRACKET :: (dimToks ns ++ rest)) Tag.LBRACKET = true from rfl] at h
      simp only [if_true, List.tail_cons] at h
      rcases hb : binary_add f (Token.num n :: Token.basic Tag.RBRACKET :: (dimToks ns ++ rest)) with e1 | p
      · rw [hb] at h; simp only [Bind.bind, Except.bind] at h; cases h
      · rw [hb] at h
        obtain ⟨d, ts2⟩ := p
        obtain ⟨hd, hts⟩ := binary_add_num_ok f n (Token.basic Tag.RBRACKET :: (dimToks ns ++ rest)) d ts2 rfl hb
        subst hd
        subst hts
        simp only [Bind.bind, Except.bind] at h
        rw [show match_token (Token.basic Tag.RBRACKET :: (dimToks ns ++ rest)) Tag.RBRACKET = true from rfl] at h
        simp only [if_true, List.tail_cons] at h
        obtain ⟨ho, ht⟩ := ih f (dim ++ [AST.Num n]) out rest ts1 hnl h
        constructor
        · rw [ho]; simp
        · exact ht

/-- The shared parameter loop, run on a single array parameter
`int a [ ] [n1]...[nk]`, appends one array-kind Id node whose dimension
list is the sentinel literal 0 followed by the k parsed dimensions. -/
theorem paramList_single_array (fuel : Nat) (a : String) (ns : List Int)
    (rest : List Token) (args0 out : List AST) (ts1 : List Token)
    (hnLB : match_token rest Tag.LBRACKET = false)
    (hnComma : match_token rest Tag.COMMA = false)
    (h : paramList fuel
      (args0)
      (Token.basic Tag.KW_INT :: Token.id a :: Token.basic Tag.LBRACKET ::
        Token.basic Tag.RBRACKET :: (dimToks ns ++ rest)) = .ok (out, ts1)) :
    out = args0 ++ [AST.Id a VarType.array_t false (AST.Num 0 :: ns.map AST.Num)] ∧ ts1 = rest := by
  cases fuel with
  | zero => simp [paramList] at h
  | succ f =>
  rw [paramList] at h
  simp [match_token, Token.tag, headName, List.tail_cons, Bind.bind, Except.bind] at h
  rcases hd : paramDims f [AST.Num 0] (dimToks ns ++ rest) with e1 | v
  · rw [hd] at h; cases h
  · rw [hd] at h
    obtain ⟨dim, ts2⟩ := v
    obtain ⟨hdim, hts2⟩ := paramDims_ok ns f [AST.Num 0] dim rest ts2 hnLB hd
    subst hdim; subst hts2
    cases f with
    | zero => simp [paramNext] at h
    | succ g =>
    simp only [paramNext.eq_def] at h
    rw [hnComma] at h
    simp only [Bool.false_eq_true, if_false, Except.ok.injEq, Prod.mk.injEq] at h
    refine ⟨?_, h.2.symm⟩
    rw [← h.1]
    simp

end SimpleCompiler

namespace SimpleCompiler

/-- C1: the relational precedence tier, as wired in binary_relation,
uses the operator set {gt_op, ge_op, le_op, le_op} — le_op twice and no
lt_op — so the tier consumes >, >= and <= as relational binary
operators but never consumes a <, and an otherwise-valid expression
with a top-level < (for example as an if condition) is a fatal grammar
violation. -/
theorem C1_relational_tier_wiring :
    relationOps = [Operator.gt_op, Operator.ge_op, Operator.le_op, Operator.le_op] ∧
    relationOps.contains Operator.lt_op = false ∧
    relationOps.count Operator.le_op = 2 ∧
    (∀ (f : Nat) (n m : Int),
      binary_relation (f+20) [Token.num n, Token.basic Tag.GT, Token.num m]
        = .ok (AST.Binary Operator.gt_op (AST.Num n) (AST.Num m), []) ∧
      binary_relation (f+20) [Token.num n, Token.basic Tag.GE, Token.num m]
        = .ok (AST.Binary Operator.ge_op (AST.Num n) (AST.Num m), []) ∧
      binary_relation (f+20) [Token.num n, Token.basic Tag.LE, Token.num m]
        = .ok (AST.Binary Operator.le_op (AST.Num n) (AST.Num m), []) ∧
      binary_relation (f+20) [Token.num n, Token.basic Tag.LT, Token.num m]
        = .ok (AST.Num n, [Token.basic Tag.LT, Token.num m]) ∧
      if_else (f+30) [Token.basic Tag.KW_IF, Token.basic Tag.LPAREN, Token.num n,
          Token.basic Tag.LT, Token.num m, Token.basic Tag.RPAREN, Token.basic Tag.SEMICON]
        = .error (.exit 118) ∧
      if_else (f+30) [Token.basic Tag.KW_IF, Token.basic Tag.LPAREN, Token.num n,
          Token.basic Tag.GT, Token.num m, Token.basic Tag.RPAREN, Token.basic Tag.SEMICON]
        = .ok (AST.If (AST.Binary Operator.gt_op (AST.Num n) (AST.Num m)) (AST.Stmt AST.Empty) none, [])) :=
  ⟨rfl, rfl, rfl, fun _ _ _ => ⟨rfl, rfl, rfl, rfl, rfl, rfl⟩⟩

/-- C2: the additive tier takes its operands from the multiplicative
tier, so multiplication binds tighter than addition: the token stream
of 1+2*3 parses to Binary(add, Num 1, Binary(mul, Num 2, Num 3)) and
never to Binary(mul, Binary(add, ...), ...). -/
theorem C2_mul_binds_tighter_than_add :
    (∀ (f : Nat) (ts : List Token), binary_add (f+1) ts = binary f Lv.mul_lv addOps ts) ∧
    (∀ (f : Nat) (n1 n2 n3 : Int),
      binary_add (f+30) [Token.num n1, Token.basic Tag.ADD, Token.num n2,
          Token.basic Tag.MUL, Token.num n3]
        = .ok (AST.Binary Operator.add_op (AST.Num n1)
            (AST.Binary Operator.mul_op (AST.Num n2) (AST.Num n3)), [])) :=
  ⟨fun _ _ => rfl, fun _ _ _ _ => rfl⟩

/-- C3: every binary tier folds left-associatively: whatever the
generic binary loop returns is a left fold over its initial left
operand (the accumulated operand only ever becomes the left child of
each new Binary node, so no same-tier chain is right-nested), and the
token stream of 1-2-3 parses to
Binary(sub, Binary(sub, Num 1, Num 2), Num 3). -/
theorem C3_left_associative_folding :
    (∀ (fuel : Nat) (sub : Lv) (ops : List Operator) (lhs e : AST) (ts ts1 : List Token),
      binaryLoop fuel sub ops lhs ts = .ok (e, ts1) →
      ∃ l : List (Operator × AST), e = l.foldl (fun a p => AST.Binary p.1 a p.2) lhs) ∧
    (∀ (f : Nat) (n1 n2 n3 : Int),
      binary_add (f+30) [Token.num n1, Token.basic Tag.SUB, Token.num n2,
          Token.basic Tag.SUB, Token.num n3]
        = .ok (AST.Binary Operator.sub_op
            (AST.Binary Operator.sub_op (AST.Num n1) (AST.Num n2)) (AST.Num n3), [])) :=
  ⟨binaryLoop_foldl, fun _ _ _ _ => rfl⟩

/-- C3 witness: the left fold shape instantiated at the 1-2-3 parse,
obtained by applying the claim theorem to the concrete run of the
generic binary loop of the additive tier. -/
theorem C3_left_associative_folding_witness :
    ∃ l : List (Operator × AST),
      AST.Binary Operator.sub_op (AST.Binary Operator.sub_op (AST.Num 1) (AST.Num 2)) (AST.Num 3)
        = l.foldl (fun a p => AST.Binary p.1 a p.2) (AST.Num 1) :=
  C3_left_associative_folding.1 20 Lv.mul_lv addOps (AST.Num 1)
    (AST.Binary Operator.sub_op (AST.Binary Operator.sub_op (AST.Num 1) (AST.Num 2)) (AST.Num 3))
    [Token.basic Tag.SUB, Token.num 2, Token.basic Tag.SUB, Token.num 3] [] rfl

/-- C4: a statement that starts with none of the dispatch keywords
parses an expression first and then classifies: a left-value followed
by = becomes an Assign with a parsed right-hand side and required
terminator; a left-value followed by the terminator is an
expression-statement with no Assign; a non-left-value is only accepted
as an expression-statement and = after it is fatal. -/
theorem C4_assign_vs_expression_statement :
    ∀ (f : Nat) (a : String) (v : Int),
      statement (f+30) [Token.id a, Token.basic Tag.ASSIGN, Token.num v, Token.basic Tag.SEMICON]
        = .ok (AST.Stmt (AST.Assign (AST.LVal a VarType.var_t []) (AST.Num v)), []) ∧
      statement (f+30) [Token.id a, Token.basic Tag.SEMICON]
        = .ok (AST.Stmt (AST.LVal a VarType.var_t []), []) ∧
      statement (f+30) [Token.num v, Token.basic Tag.SEMICON]
        = .ok (AST.Stmt (AST.Num v), []) ∧
      statement (f+30) [Token.num v, Token.basic Tag.ASSIGN, Token.num v, Token.basic Tag.SEMICON]
        = .error (.exit 115) :=
  fun _ _ _ => ⟨rfl, rfl, rfl, rfl⟩

/-- C5: the code at the failing input: a statement of the form
break 1 ; (and likewise continue 1 ;) is accepted and produces a
Control node of return kind carrying the expression — the node kind
does not match the keyword and the break/continue node carries an
expression, contrary to the claim; only the bare forms and return
behave as claimed. -/
theorem C5_break_with_expression_builds_return :
    statement 30 [Token.basic Tag.KW_BREAK, Token.num 1, Token.basic Tag.SEMICON]
      = .ok (AST.Stmt (AST.Control Control.return_c (some (AST.Num 1))), []) ∧
    statement 30 [Token.basic Tag.KW_CONTINUE, Token.num 1, Token.basic Tag.SEMICON]
      = .ok (AST.Stmt (AST.Control Control.return_c (some (AST.Num 1))), []) ∧
    statement 30 [Token.basic Tag.KW_BREAK, Token.basic Tag.SEMICON]
      = .ok (AST.Stmt (AST.Control Control.break_c none), []) ∧
    statement 30 [Token.basic Tag.KW_CONTINUE, Token.basic Tag.SEMICON]
      = .ok (AST.Stmt (AST.Control Control.continue_c none), []) ∧
    statement 30 [Token.basic Tag.KW_RETURN, Token.basic Tag.SEMICON]
      = .ok (AST.Stmt (AST.Control Control.return_c none), []) ∧
    statement 30 [Token.basic Tag.KW_RETURN, Token.num 1, Token.basic Tag.SEMICON]
      = .ok (AST.Stmt (AST.Control Control.return_c (some (AST.Num 1))), []) :=
  ⟨rfl, rfl, rfl, rfl, rfl, rfl⟩

/-- C6: an else always binds to the innermost still-open if: parsing
if(a) if(b) c; else d; yields an outer If with no else branch whose
then-statement is the inner If carrying the d-statement as its else
branch. -/
theorem C6_dangling_else_binds_innermost :
    ∀ (f : Nat) (a b c d : String),
      statement (f+40) [Token.basic Tag.KW_IF, Token.basic Tag.LPAREN, Token.id a,
          Token.basic Tag.RPAREN,
          Token.basic Tag.KW_IF, Token.basic Tag.LPAREN, Token.id b, Token.basic Tag.RPAREN,
          Token.id c, Token.basic Tag.SEMICON,
          Token.basic Tag.KW_ELSE, Token.id d, Token.basic Tag.SEMICON]
        = .ok (AST.Stmt (AST.If (AST.LVal a VarType.var_t [])
            (AST.Stmt (AST.If (AST.LVal b VarType.var_t [])
              (AST.Stmt (AST.LVal c VarType.var_t []))
              (some (AST.Stmt (AST.LVal d VarType.var_t [])))))
            none), []) :=
  fun _ _ _ _ _ => rfl

/-- C7: a function parameter declared as int a [ ] [n1]...[nk] always
produces an array-kind parameter Id whose dimension list has exactly
k+1 entries: the sentinel literal 0 first, then the k parsed dimension
expressions in source order. -/
theorem C7_param_array_dim_sentinel (fuel : Nat) (name a : String) (ns : List Int)
    (out : AST) (ts1 : List Token)
    (h : function_def fuel
      ([Token.basic Tag.KW_VOID, Token.id name, Token.basic Tag.LPAREN,
        Token.basic Tag.KW_INT, Token.id a, Token.basic Tag.LBRACKET, Token.basic Tag.RBRACKET]
        ++ dimToks ns ++ [Token.basic Tag.RPAREN, Token.basic Tag.LBRACE, Token.basic Tag.RBRACE])
      = .ok (out, ts1)) :
    out = AST.FuncDef Ty.void_t name
            [AST.Id a VarType.array_t false (AST.Num 0 :: ns.map AST.Num)]
            (AST.Block []) ∧ ts1 = [] := by
  cases fuel with
  | zero => simp [function_def] at h
  | succ f =>
  rw [function_def] at h
  simp only [List.cons_append, List.nil_append] at h
  simp [match_token, Token.tag, headName, List.tail_cons, Bind.bind, Except.bind] at h
  rcases hp : paramList f []
      (Token.basic Tag.KW_INT :: Token.id a :: Token.basic Tag.LBRACKET ::
        Token.basic Tag.RBRACKET ::
        (dimToks ns ++ [Token.basic Tag.RPAREN, Token.basic Tag.LBRACE, Token.basic Tag.RBRACE]))
      with e1 | v
  · rw [hp] at h; cases h
  · rw [hp] at h
    obtain ⟨args, ts2⟩ := v
    obtain ⟨hargs, hts2⟩ := paramList_single_array f a ns
      [Token.basic Tag.RPAREN, Token.basic Tag.LBRACE, Token.basic Tag.RBRACE]
      [] args ts2 rfl rfl hp
    subst hargs; subst hts2
    simp only [match_token, Token.tag] at h
    simp at h
    cases f with
    | zero => simp [block] at h
    | succ g =>
    rw [block] at h
    simp only [List.tail_cons] at h
    cases g with
    | zero => simp [blockItems] at h
    | succ k =>
    rw [blockItems] at h
    simp [match_token, Token.tag, List.tail_cons] at h
    exact ⟨by simp [← h.1], h.2⟩

/-- C7 witness: the claim theorem applied to the concrete parameter
int x [ ] [2] [3] of a function void f, whose successful parse is
computed outright. -/
theorem C7_param_array_dim_sentinel_witness :
    AST.FuncDef Ty.void_t "f"
        [AST.Id "x" VarType.array_t false [AST.Num 0, AST.Num 2, AST.Num 3]] (AST.Block [])
      = AST.FuncDef Ty.void_t "f"
          [AST.Id "x" VarType.array_t false (AST.Num 0 :: List.map AST.Num [2, 3])] (AST.Block [])
    ∧ ([] : List Token) = [] :=
  C7_param_array_dim_sentinel 60 "f" "x" [2, 3]
    (AST.FuncDef Ty.void_t "f"
      [AST.Id "x" VarType.array_t false [AST.Num 0, AST.Num 2, AST.Num 3]] (AST.Block [])) [] rfl

/-- C8 counterexample: two different failure points share exit status
998 — a missing left parenthesis after the function name, and a missing
parameter identifier inside the parameter list — so failure sites are
not in one-to-one correspondence with exit statuses. -/
theorem C8_counterexample_shared_exit_codes :
    function_def 40 [Token.basic Tag.KW_VOID, Token.id "f", Token.num 1] = .error (.exit 998) ∧
    function_def 40 [Token.basic Tag.KW_VOID, Token.id "f", Token.basic Tag.LPAREN,
      Token.basic Tag.KW_INT, Token.num 1] = .error (.exit 998) :=
  ⟨rfl, rfl⟩

/-- C8 amended: exit statuses are not distinct per failure site:
several distinct failure points reuse a code — a missing left
parenthesis after if and after while both exit 116, and a missing right
parenthesis after an if condition and after a while condition both
exit 118. -/
theorem C8_amended_shared_exit_codes :
    if_else 40 [Token.basic Tag.KW_IF, Token.num 1] = .error (.exit 116) ∧
    while_loop 40 [Token.basic Tag.KW_WHILE, Token.num 1] = .error (.exit 116) ∧
    if_else 40 [Token.basic Tag.KW_IF, Token.basic Tag.LPAREN, Token.num 1,
      Token.basic Tag.SEMICON] = .error (.exit 118) ∧
    while_loop 40 [Token.basic Tag.KW_WHILE, Token.basic Tag.LPAREN, Token.num 1,
      Token.basic Tag.SEMICON] = .error (.exit 118) :=
  ⟨rfl, rfl, rfl, rfl⟩

/-- C9: the block builder consumes the current token unconditionally in
place of the opening brace, so a function body whose first token after
the closing parenthesis is not a brace — here the literal 7 — is
consumed as if it were the brace and parsing continues to a successful
function definition instead of failing at that position. -/
theorem C9_block_consumes_unchecked :
    (∀ (f : Nat) (ts : List Token), block (f+1) ts = blockItems f [] ts.tail) ∧
    function_def 40 [Token.basic Tag.KW_VOID, Token.id "f", Token.basic Tag.LPAREN,
        Token.basic Tag.RPAREN, Token.num 7, Token.basic Tag.RBRACE]
      = .ok (AST.FuncDef Ty.void_t "f" [] (AST.Block []), []) :=
  ⟨fun _ _ => rfl, rfl⟩

/-- C10: expression statements, assignment right-hand sides and return
values are parsed at the additive tier only, so a top-level equality,
logical or (unconsumable) relational operator there is fatal — exits
114, 113 and 110 respectively — while the same operators are accepted
at the top level of if and while conditions, which are parsed at the
logical-or tier. -/
theorem C10_statement_tiers :
    ∀ (f : Nat) (a b c : String),
      statement (f+40) [Token.id a, Token.basic Tag.EQU, Token.id b, Token.basic Tag.SEMICON]
        = .error (.exit 114) ∧
      statement (f+40) [Token.id a, Token.basic Tag.ASSIGN, Token.id b, Token.basic Tag.LT,
          Token.id c, Token.basic Tag.SEMICON] = .error (.exit 113) ∧
      statement (f+40) [Token.id a, Token.basic Tag.ASSIGN, Token.id b, Token.basic Tag.EQU,
          Token.id c, Token.basic Tag.SEMICON] = .error (.exit 113) ∧
      statement (f+40) [Token.id a, Token.basic Tag.ASSIGN, Token.id b, Token.basic Tag.OR,
          Token.id c, Token.basic Tag.SEMICON] = .error (.exit 113) ∧
      statement (f+40) [Token.basic Tag.KW_RETURN, Token.id a, Token.basic Tag.EQU,
          Token.id b, Token.basic Tag.SEMICON] = .error (.exit 110) ∧
      if_else (f+40) [Token.basic Tag.KW_IF, Token.basic Tag.LPAREN, Token.id a,
          Token.basic Tag.EQU, Token.id b, Token.basic Tag.RPAREN, Token.basic Tag.SEMICON]
        = .ok (AST.If (AST.Binary Operator.equ_op (AST.LVal a VarType.var_t [])
            (AST.LVal b VarType.var_t [])) (AST.Stmt AST.Empty) none, []) ∧
      if_else (f+40) [Token.basic Tag.KW_IF, Token.basic Tag.LPAREN, Token.id a,
          Token.basic Tag.LE, Token.id b, Token.basic Tag.RPAREN, Token.basic Tag.SEMICON]
        = .ok (AST.If (AST.Binary Operator.le_op (AST.LVal a VarType.var_t [])
            (AST.LVal b VarType.var_t [])) (AST.Stmt AST.Empty) none, []) ∧
      if_else (f+40) [Token.basic Tag.KW_IF, Token.basic Tag.LPAREN, Token.id a,
          Token.basic Tag.OR, Token.id b, Token.basic Tag.RPAREN, Token.basic Tag.SEMICON]
        = .ok (AST.If (AST.Binary Operator.or_op (AST.LVal a VarType.var_t [])
            (AST.LVal b VarType.var_t [])) (AST.Stmt AST.Empty) none, []) ∧
      while_loop (f+40) [Token.basic Tag.KW_WHILE, Token.basic Tag.LPAREN, Token.id a,
          Token.basic Tag.AND, Token.id b, Token.basic Tag.RPAREN, Token.basic Tag.SEMICON]
        = .ok (AST.While (AST.Binary Operator.and_op (AST.LVal a VarType.var_t [])
            (AST.LVal b VarType.var_t [])) (AST.Stmt AST.Empty), []) :=
  fun _ _ _ _ => ⟨rfl, rfl, rfl, rfl, rfl, rfl, rfl, rfl, rfl⟩

end SimpleCompiler
